import Mathlib

/-!
Verification of the Monty Hall Monte Carlo simulator (`simulator.cpp`).

The C++ program is a single straight-line simulation: three `DoorState`
records, a seeded `std::mt19937` random source consumed through
`getRandom(max)` (a uniform draw in `[0, max]`), a predicate-driven helper
`chooseRandomIndex`, a per-trial routine `simulateSingleGame`, a batch
runner `runSimulation`, a two-batch orchestrator `simulate`, and the CLI
parser `parseArguments`.

Randomness is embedded by a *tape*: a list of natural numbers holding the
successive values produced by the random source.  `getRandom max` consumes
the next tape entry and clamps it into `[0, max]` (the C++ draw from
`uniform_int_distribution<int>(0, max)` always lies in that range, so on
tapes of in-range draws the clamp is the identity; clamping merely makes
the model total).  Exact probabilities are obtained by averaging the
embedded game over all in-range tapes with the uniform weights of each
draw.
-/

/-- `struct DoorState` — one of the three doors; all flags start `false`. -/
structure DoorState where
  selected : Bool := false
  hasCar : Bool := false
  «open» : Bool := false
deriving DecidableEq

instance : Inhabited DoorState := ⟨{}⟩

instance {ε α : Type} [DecidableEq ε] [DecidableEq α] :
    DecidableEq (Except ε α) := fun a b =>
  match a, b with
  | Except.error e, Except.error f => decidable_of_iff (e = f) (by simp)
  | Except.ok x, Except.ok y => decidable_of_iff (x = y) (by simp)
  | Except.error _, Except.ok _ => isFalse fun h => Except.noConfusion h
  | Except.ok _, Except.error _ => isFalse fun h => Except.noConfusion h

/-- `DOORS_NUMBER = 3`. -/
def DOORS_NUMBER : Nat := 3

/-- `enum class LogLevel`. -/
inductive LogLevel where
  | DEBUG
  | INFO
  | WARN
deriving DecidableEq

/-- `std::vector<DoorState> board(DOORS_NUMBER)` — the fresh board. -/
def boardInit : List DoorState := List.replicate DOORS_NUMBER {}

/-- One in-place update `board[i] = f (board[i])` on the vector. -/
def modifyDoor (board : List DoorState) (i : Nat) (f : DoorState → DoorState) :
    List DoorState :=
  board.set i (f (board.getD i default))

/-- `getRandom(max)`: consume one value from the tape of random draws,
clamped into `[0, max]`; returns the draw and the rest of the tape. -/
def getRandom (max : Nat) (tape : List Nat) : Nat × List Nat :=
  (min (tape.headD 0) max, tape.tail)

/-- The ascending list of indices of `board` satisfying `condition`
(the `indices` vector built by the loop in `chooseRandomIndex`). -/
def candidateIndices (board : List DoorState) (condition : DoorState → Bool) :
    List Nat :=
  (List.range board.length).filter fun i => condition (board.getD i default)

/-- `Simulator::chooseRandomIndex`: collect the qualifying indices in
ascending order, throw `"No suitable indices available"` if none, else
return `indices[getRandom(indices.size() - 1)]`. -/
def chooseRandomIndex (board : List DoorState) (condition : DoorState → Bool)
    (tape : List Nat) : Except String (Nat × List Nat) :=
  let indices := candidateIndices board condition
  if indices.isEmpty then
    Except.error "No suitable indices available"
  else
    let r := getRandom (indices.length - 1) tape
    Except.ok (indices.getD r.1 0, r.2)

/-- The host-reveal predicate `!door.selected && !door.hasCar`. -/
def revealCond (door : DoorState) : Bool := !door.selected && !door.hasCar

/-- The switch predicate `!door.selected && !door.open`. -/
def switchCond (door : DoorState) : Bool := !door.selected && !door.«open»

/-- The board after `board[carIndex].hasCar = true`. -/
def boardAfterCar (carIndex : Nat) : List DoorState :=
  modifyDoor boardInit carIndex fun d => { d with hasCar := true }

/-- The board after `board[playerChoiceIndex].selected = true`. -/
def boardAfterPick (carIndex playerChoiceIndex : Nat) : List DoorState :=
  modifyDoor (boardAfterCar carIndex) playerChoiceIndex
    fun d => { d with selected := true }

/-- The qualifying indices at the host-reveal step. -/
def revealIndices (carIndex playerChoiceIndex : Nat) : List Nat :=
  candidateIndices (boardAfterPick carIndex playerChoiceIndex) revealCond

/-- The board after `board[openedDoorIndex].open = true`. -/
def boardAfterReveal (carIndex playerChoiceIndex openedDoorIndex : Nat) :
    List DoorState :=
  modifyDoor (boardAfterPick carIndex playerChoiceIndex) openedDoorIndex
    fun d => { d with «open» := true }

/-- The qualifying indices at the switch step. -/
def switchIndices (carIndex playerChoiceIndex openedDoorIndex : Nat) : List Nat :=
  candidateIndices (boardAfterReveal carIndex playerChoiceIndex openedDoorIndex)
    switchCond

/-- The board after `board[playerChoiceIndex].selected = false;
board[newChoiceIndex].selected = true`. -/
def boardAfterSwitch (carIndex playerChoiceIndex openedDoorIndex newChoiceIndex :
    Nat) : List DoorState :=
  modifyDoor
    (modifyDoor (boardAfterReveal carIndex playerChoiceIndex openedDoorIndex)
      playerChoiceIndex fun d => { d with selected := false })
    newChoiceIndex fun d => { d with selected := true }

/-- `carIndex = getRandom(board.size() - 1)` — the first draw of a trial. -/
def carDraw (tape : List Nat) : Nat :=
  (getRandom (boardInit.length - 1) tape).1

/-- The tape left after the car draw. -/
def tapeAfterCar (tape : List Nat) : List Nat :=
  (getRandom (boardInit.length - 1) tape).2

/-- `playerChoiceIndex = getRandom(board.size() - 1)` — the second draw. -/
def pickDraw (tape : List Nat) : Nat :=
  (getRandom (boardInit.length - 1) (tapeAfterCar tape)).1

/-- The tape left after the player-choice draw. -/
def tapeAfterPick (tape : List Nat) : List Nat :=
  (getRandom (boardInit.length - 1) (tapeAfterCar tape)).2

/-- `Simulator::simulateSingleGame(changePlayerDecision)`: place the car,
place the player's pick, reveal a qualifying door, optionally switch, and
return whether the finally selected door has the car (plus the remaining
tape). -/
def simulateSingleGame (changePlayerDecision : Bool) (tape : List Nat) :
    Except String (Bool × List Nat) :=
  let carIndex := carDraw tape
  let playerChoiceIndex := pickDraw tape
  match chooseRandomIndex (boardAfterPick carIndex playerChoiceIndex) revealCond
      (tapeAfterPick tape) with
  | Except.error e => Except.error e
  | Except.ok (openedDoorIndex, t3) =>
    if changePlayerDecision then
      match chooseRandomIndex
          (boardAfterReveal carIndex playerChoiceIndex openedDoorIndex)
          switchCond t3 with
      | Except.error e => Except.error e
      | Except.ok (newChoiceIndex, t4) =>
        Except.ok
          (((boardAfterSwitch carIndex playerChoiceIndex openedDoorIndex
              newChoiceIndex).getD newChoiceIndex default).hasCar, t4)
    else
      Except.ok
        (((boardAfterReveal carIndex playerChoiceIndex openedDoorIndex).getD
            playerChoiceIndex default).hasCar, t3)

/-- The loop body of `runSimulation`: run `n` trials, summing the boolean
results into `winCount` and threading the tape. -/
def runSimulationGo (changePlayerDecision : Bool) :
    Nat → List Nat → Except String (Nat × List Nat)
  | 0, tape => Except.ok (0, tape)
  | n + 1, tape =>
    match simulateSingleGame changePlayerDecision tape with
    | Except.error e => Except.error e
    | Except.ok (w, t) =>
      match runSimulationGo changePlayerDecision n t with
      | Except.error e => Except.error e
      | Except.ok (c, t') => Except.ok ((if w then 1 else 0) + c, t')

/-- `Simulator::runSimulation(simulationsNumber, changePlayerDecision)`:
run the batch and compute `winRatio = winCount / simulationsNumber` as a
floating-point value, modelled as a rational; division by zero (the C++
`0/0` double, a NaN) is modelled as `none`.  A non-positive C++ `int`
count makes the loop run zero times (`Int.toNat`). -/
def runSimulation (simulationsNumber : Int) (changePlayerDecision : Bool)
    (tape : List Nat) : Except String ((Nat × Option ℚ) × List Nat) :=
  match runSimulationGo changePlayerDecision simulationsNumber.toNat tape with
  | Except.error e => Except.error e
  | Except.ok (winCount, t) =>
    Except.ok ((winCount,
      if simulationsNumber = 0 then none
      else some ((winCount : ℚ) / (simulationsNumber : ℚ))), t)

/-- `Simulator::simulate(simulationsNumber)`: the stay batch
(`changePlayerDecision = false`) first, then the switch batch
(`changePlayerDecision = true`) on the remaining tape. -/
def simulate (simulationsNumber : Int) (tape : List Nat) :
    Except String (((Nat × Option ℚ) × (Nat × Option ℚ)) × List Nat) :=
  match runSimulation simulationsNumber false tape with
  | Except.error e => Except.error e
  | Except.ok (stayResult, t1) =>
    match runSimulation simulationsNumber true t1 with
    | Except.error e => Except.error e
    | Except.ok (switchResult, t2) =>
      Except.ok ((stayResult, switchResult), t2)

/-- The numeric value of a list of decimal digit characters. -/
def digitsVal (ds : List Char) : Nat :=
  ds.foldl (fun a c => 10 * a + (c.toNat - 48)) 0

/-- `std::stoi`: skip leading spaces, read an optional sign and then at
least one decimal digit (trailing characters are ignored); throws
`std::invalid_argument` when no digits can be read. -/
def stoi (s : String) : Except String Int :=
  let cs := s.data.dropWhile (· = ' ')
  let signAndRest : Bool × List Char :=
    match cs with
    | '-' :: rest => (true, rest)
    | '+' :: rest => (false, rest)
    | _ => (false, cs)
  let ds := signAndRest.2.takeWhile Char.isDigit
  if ds.isEmpty then
    Except.error "stoi"
  else
    Except.ok ((if signAndRest.1 then -1 else 1) * (digitsVal ds : Int))

/-- The loop of `parseArguments` over the argument tokens (after the
program name), carrying the current `simulations` and `logLevel`. -/
def parseArgumentsGo : List String → Int → LogLevel →
    Except String (Int × LogLevel)
  | [], simulations, logLevel => Except.ok (simulations, logLevel)
  | arg :: rest, simulations, logLevel =>
    if arg = "--simulations" then
      match rest with
      | v :: rest' =>
        match stoi v with
        | Except.error e => Except.error e
        | Except.ok n => parseArgumentsGo rest' n logLevel
      | [] => Except.error ("Invalid argument: " ++ arg)
    else if arg = "--verbose" then
      parseArgumentsGo rest simulations LogLevel.DEBUG
    else
      Except.error ("Invalid argument: " ++ arg)

/-- `parseArguments`: defaults `simulations = 10000`, `logLevel = INFO`,
then the token loop.  An `Except.error` outcome is the path on which
`main` prints the usage message and returns `EXIT_FAILURE`. -/
def parseArguments (args : List String) : Except String (Int × LogLevel) :=
  parseArgumentsGo args 10000 LogLevel.INFO

/-- The results of the `n` successive trials of a batch (total on the
error-free runs, which lemma `simulateSingleGame_ok` shows are all runs). -/
def trialResults (changePlayerDecision : Bool) :
    Nat → List Nat → List Bool
  | 0, _ => []
  | n + 1, tape =>
    match simulateSingleGame changePlayerDecision tape with
    | Except.error _ => []
    | Except.ok (w, t) => w :: trialResults changePlayerDecision n t

/-- The tape remaining after the `n` trials of a batch. -/
def finalTape (changePlayerDecision : Bool) : Nat → List Nat → List Nat
  | 0, tape => tape
  | n + 1, tape =>
    match simulateSingleGame changePlayerDecision tape with
    | Except.error _ => tape
    | Except.ok (_, t) => finalTape changePlayerDecision n t

/-- The number of doors of `board` satisfying `f`. -/
def countTrue (board : List DoorState) (f : DoorState → Bool) : Nat :=
  (board.filter f).length

/-- The per-stage board invariant asserted by the specification: exactly
one car, exactly one selected door, at most one open door, the car door
closed, the selected door closed. -/
def boardOk (b : List DoorState) : Prop :=
  countTrue b (fun d => d.hasCar) = 1 ∧
  countTrue b (fun d => d.selected) = 1 ∧
  countTrue b (fun d => d.«open») ≤ 1 ∧
  (∀ d ∈ b, d.hasCar = true → d.«open» = false) ∧
  (∀ d ∈ b, d.selected = true → d.«open» = false)

instance (b : List DoorState) : Decidable (boardOk b) := by
  unfold boardOk; infer_instance

/-- `1` if the trial on this tape is a win, else `0`. -/
def winInd (changePlayerDecision : Bool) (tape : List Nat) : ℚ :=
  match simulateSingleGame changePlayerDecision tape with
  | Except.ok (true, _) => 1
  | _ => 0

/-- The exact win probability of a single trial: the average of the
embedded game over the uniform draws it makes — car and pick uniform on
`[0,2]`, the reveal uniform among the qualifying indices, and (when
switching) the final draw uniform among its qualifying indices. -/
def probWin (changePlayerDecision : Bool) : ℚ :=
  List.sum <| (List.range 3).map fun c =>
    List.sum <| (List.range 3).map fun p =>
      (1 / 3 : ℚ) * (1 / 3) *
        (List.sum <| (List.range (revealIndices c p).length).map fun r =>
          (1 / ((revealIndices c p).length : ℚ)) *
            if changePlayerDecision then
              List.sum <|
                (List.range
                    (switchIndices c p ((revealIndices c p).getD r 0)).length).map
                  fun s =>
                    (1 / ((switchIndices c p
                        ((revealIndices c p).getD r 0)).length : ℚ)) *
                      winInd changePlayerDecision [c, p, r, s]
            else winInd changePlayerDecision [c, p, r])

/-! ## Helper lemmas -/

lemma boardInit_length : boardInit.length = 3 := rfl

lemma carDraw_lt (tape : List Nat) : carDraw tape < 3 :=
  Nat.lt_succ_of_le (min_le_right _ _)

lemma pickDraw_lt (tape : List Nat) : pickDraw tape < 3 :=
  Nat.lt_succ_of_le (min_le_right _ _)

lemma getD_mem_of_lt : ∀ (l : List Nat) (j : Nat), j < l.length → l.getD j 0 ∈ l
  | a :: l, 0, _ => List.mem_cons_self a l
  | a :: l, j + 1, h =>
    List.mem_cons_of_mem a (getD_mem_of_lt l j (Nat.lt_of_succ_lt_succ h))

lemma chooseRandomIndex_ok (board : List DoorState) (cond : DoorState → Bool)
    (tape : List Nat) (h : candidateIndices board cond ≠ []) :
    chooseRandomIndex board cond tape =
      Except.ok ((candidateIndices board cond).getD
        (min (tape.headD 0) ((candidateIndices board cond).length - 1)) 0,
        tape.tail) := by
  simp [chooseRandomIndex, getRandom, h]

lemma min_clamp_lt (a len : Nat) (h : 0 < len) : min a (len - 1) < len := by
  have h1 : min a (len - 1) ≤ len - 1 := min_le_right _ _
  omega

lemma chooseRandomIndex_mem (board : List DoorState) (cond : DoorState → Bool)
    (tape : List Nat) (i : Nat) (t : List Nat)
    (h : chooseRandomIndex board cond tape = Except.ok (i, t)) :
    i ∈ candidateIndices board cond := by
  by_cases hne : candidateIndices board cond = []
  · simp [chooseRandomIndex, hne] at h
  · rw [chooseRandomIndex_ok board cond tape hne] at h
    have hlen : 0 < (candidateIndices board cond).length :=
      List.length_pos.mpr hne
    have := getD_mem_of_lt (candidateIndices board cond)
      (min (tape.headD 0) ((candidateIndices board cond).length - 1))
      (min_clamp_lt _ _ hlen)
    simpa [← (Prod.mk.injEq .. ▸ (Except.ok.injEq .. ▸ h)).1] using this

lemma chooseRandomIndex_singleton (board : List DoorState)
    (cond : DoorState → Bool) (n : Nat)
    (h : candidateIndices board cond = [n]) (tape : List Nat) :
    chooseRandomIndex board cond tape = Except.ok (n, tape.tail) := by
  simp [chooseRandomIndex, getRandom, h]

lemma candidateIndices_of_reveal (c p : Nat) :
    candidateIndices (boardAfterPick c p) revealCond = revealIndices c p := rfl

lemma candidateIndices_of_switch (c p o : Nat) :
    candidateIndices (boardAfterReveal c p o) switchCond =
      switchIndices c p o := rfl

lemma revealIndices_facts : ∀ c < 3, ∀ p < 3,
    revealIndices c p ≠ [] ∧
      (revealIndices c p).length = (if c = p then 2 else 1) := by decide

lemma switchIndices_facts : ∀ c < 3, ∀ p < 3, ∀ o ∈ revealIndices c p,
    switchIndices c p o ≠ [] ∧ (switchIndices c p o).length = 1 := by decide

lemma board_stage_facts : ∀ c < 3, ∀ p < 3,
    (countTrue (boardAfterCar c) (fun d => d.hasCar) = 1 ∧
      countTrue (boardAfterCar c) (fun d => d.selected) = 0 ∧
      countTrue (boardAfterCar c) (fun d => d.«open») = 0) ∧
    boardOk (boardAfterPick c p) ∧
    ∀ o ∈ revealIndices c p, boardOk (boardAfterReveal c p o) ∧
      ∀ n ∈ switchIndices c p o, boardOk (boardAfterSwitch c p o n) := by decide

lemma outcome_facts : ∀ c < 3, ∀ p < 3, ∀ o ∈ revealIndices c p,
    ((boardAfterReveal c p o).getD p default).hasCar = decide (c = p) ∧
    ∀ n ∈ switchIndices c p o,
      ((boardAfterSwitch c p o n).getD n default).hasCar = !decide (c = p) := by
  decide

lemma switch_sel_facts : ∀ c < 3, ∀ p < 3, ∀ o ∈ revealIndices c p,
    ∀ n ∈ switchIndices c p o,
      p ≠ n ∧ ((boardAfterSwitch c p o n).getD n default).selected = true ∧
      ((boardAfterSwitch c p o n).getD p default).selected = false ∧
      countTrue (boardAfterSwitch c p o n) (fun d => d.selected) = 1 := by decide

lemma simulateSingleGame_stay (tape : List Nat) :
    simulateSingleGame false tape =
      Except.ok (decide (carDraw tape = pickDraw tape),
        (tapeAfterPick tape).tail) := by
  have hc := carDraw_lt tape
  have hp := pickDraw_lt tape
  obtain ⟨hne, -⟩ := revealIndices_facts _ hc _ hp
  have hlen : 0 < (revealIndices (carDraw tape) (pickDraw tape)).length :=
    List.length_pos.mpr hne
  have hmem : (revealIndices (carDraw tape) (pickDraw tape)).getD
      (min ((tapeAfterPick tape).headD 0)
        ((revealIndices (carDraw tape) (pickDraw tape)).length - 1)) 0
      ∈ revealIndices (carDraw tape) (pickDraw tape) :=
    getD_mem_of_lt _ _ (min_clamp_lt _ _ hlen)
  simp only [simulateSingleGame, chooseRandomIndex_ok _ _ _ hne,
    candidateIndices_of_reveal, Bool.false_eq_true, if_false]
  rw [(outcome_facts _ hc _ hp _ hmem).1]

lemma simulateSingleGame_switch (tape : List Nat) :
    ∃ t, simulateSingleGame true tape =
      Except.ok (!decide (carDraw tape = pickDraw tape), t) := by
  have hc := carDraw_lt tape
  have hp := pickDraw_lt tape
  obtain ⟨hne, -⟩ := revealIndices_facts _ hc _ hp
  have hlen : 0 < (revealIndices (carDraw tape) (pickDraw tape)).length :=
    List.length_pos.mpr hne
  have hmem : (revealIndices (carDraw tape) (pickDraw tape)).getD
      (min ((tapeAfterPick tape).headD 0)
        ((revealIndices (carDraw tape) (pickDraw tape)).length - 1)) 0
      ∈ revealIndices (carDraw tape) (pickDraw tape) :=
    getD_mem_of_lt _ _ (min_clamp_lt _ _ hlen)
  obtain ⟨-, hslen⟩ := switchIndices_facts _ hc _ hp _ hmem
  obtain ⟨n, hn⟩ := List.length_eq_one.mp hslen
  have hnmem : n ∈ switchIndices (carDraw tape) (pickDraw tape)
      ((revealIndices (carDraw tape) (pickDraw tape)).getD
        (min ((tapeAfterPick tape).headD 0)
          ((revealIndices (carDraw tape) (pickDraw tape)).length - 1)) 0) := by
    rw [hn]; exact List.mem_singleton_self n
  refine ⟨((tapeAfterPick tape).tail).tail, ?_⟩
  simp only [simulateSingleGame, chooseRandomIndex_ok _ _ _ hne,
    candidateIndices_of_reveal, if_true]
  simp only [chooseRandomIndex_singleton _ _ _ hn]
  rw [(outcome_facts _ hc _ hp _ hmem).2 _ hnmem]

lemma simulateSingleGame_ok (changePlayerDecision : Bool) (tape : List Nat) :
    ∃ w t, simulateSingleGame changePlayerDecision tape = Except.ok (w, t) := by
  cases changePlayerDecision
  · exact ⟨_, _, simulateSingleGame_stay tape⟩
  · obtain ⟨t, h⟩ := simulateSingleGame_switch tape
    exact ⟨_, t, h⟩

lemma runSimulationGo_eq (changePlayerDecision : Bool) :
    ∀ (n : Nat) (tape : List Nat),
    runSimulationGo changePlayerDecision n tape =
      Except.ok ((trialResults changePlayerDecision n tape).count true,
        finalTape changePlayerDecision n tape)
  | 0, _ => rfl
  | n + 1, tape => by
    obtain ⟨w, t, h⟩ := simulateSingleGame_ok changePlayerDecision tape
    simp only [runSimulationGo, trialResults, finalTape, h,
      runSimulationGo_eq changePlayerDecision n t]
    cases w <;> simp [List.count_cons, Nat.add_comm]

lemma trialResults_length (changePlayerDecision : Bool) :
    ∀ (n : Nat) (tape : List Nat),
    (trialResults changePlayerDecision n tape).length = n
  | 0, _ => rfl
  | n + 1, tape => by
    obtain ⟨w, t, h⟩ := simulateSingleGame_ok changePlayerDecision tape
    simp only [trialResults, h, List.length_cons,
      trialResults_length changePlayerDecision n t]

lemma probWin_stay : probWin false = 1 / 3 := by
  norm_num [probWin, List.range_succ,
    show revealIndices 0 0 = [1, 2] from rfl,
    show revealIndices 0 1 = [2] from rfl,
    show revealIndices 0 2 = [1] from rfl,
    show revealIndices 1 0 = [2] from rfl,
    show revealIndices 1 1 = [0, 2] from rfl,
    show revealIndices 1 2 = [0] from rfl,
    show revealIndices 2 0 = [1] from rfl,
    show revealIndices 2 1 = [0] from rfl,
    show revealIndices 2 2 = [0, 1] from rfl,
    show winInd false [0, 0, 0] = 1 from rfl,
    show winInd false [0, 0, 1] = 1 from rfl,
    show winInd false [0, 1, 0] = 0 from rfl,
    show winInd false [0, 2, 0] = 0 from rfl,
    show winInd false [1, 0, 0] = 0 from rfl,
    show winInd false [1, 1, 0] = 1 from rfl,
    show winInd false [1, 1, 1] = 1 from rfl,
    show winInd false [1, 2, 0] = 0 from rfl,
    show winInd false [2, 0, 0] = 0 from rfl,
    show winInd false [2, 1, 0] = 0 from rfl,
    show winInd false [2, 2, 0] = 1 from rfl,
    show winInd false [2, 2, 1] = 1 from rfl]

lemma probWin_switch : probWin true = 2 / 3 := by
  norm_num [probWin, List.range_succ,
    show revealIndices 0 0 = [1, 2] from rfl,
    show revealIndices 0 1 = [2] from rfl,
    show revealIndices 0 2 = [1] from rfl,
    show revealIndices 1 0 = [2] from rfl,
    show revealIndices 1 1 = [0, 2] from rfl,
    show revealIndices 1 2 = [0] from rfl,
    show revealIndices 2 0 = [1] from rfl,
    show revealIndices 2 1 = [0] from rfl,
    show revealIndices 2 2 = [0, 1] from rfl,
    show switchIndices 0 0 1 = [2] from rfl,
    show switchIndices 0 0 2 = [1] from rfl,
    show switchIndices 1 1 0 = [2] from rfl,
    show switchIndices 1 1 2 = [0] from rfl,
    show switchIndices 2 2 0 = [1] from rfl,
    show switchIndices 2 2 1 = [0] from rfl,
    show switchIndices 0 1 2 = [0] from rfl,
    show switchIndices 0 2 1 = [0] from rfl,
    show switchIndices 1 0 2 = [1] from rfl,
    show switchIndices 1 2 0 = [1] from rfl,
    show switchIndices 2 0 1 = [2] from rfl,
    show switchIndices 2 1 0 = [2] from rfl,
    show winInd true [0, 0, 0, 0] = 0 from rfl,
    show winInd true [0, 0, 1, 0] = 0 from rfl,
    show winInd true [1, 1, 0, 0] = 0 from rfl,
    show winInd true [1, 1, 1, 0] = 0 from rfl,
    show winInd true [2, 2, 0, 0] = 0 from rfl,
    show winInd true [2, 2, 1, 0] = 0 from rfl,
    show winInd true [0, 1, 0, 0] = 1 from rfl,
    show winInd true [0, 2, 0, 0] = 1 from rfl,
    show winInd true [1, 0, 0, 0] = 1 from rfl,
    show winInd true [1, 2, 0, 0] = 1 from rfl,
    show winInd true [2, 0, 0, 0] = 1 from rfl,
    show winInd true [2, 1, 0, 0] = 1 from rfl]

lemma runSimulation_eq (simulationsNumber : Int) (changePlayerDecision : Bool)
    (tape : List Nat) :
    runSimulation simulationsNumber changePlayerDecision tape =
      Except.ok
        (((trialResults changePlayerDecision simulationsNumber.toNat
            tape).count true,
          if simulationsNumber = 0 then none
          else some
            (((trialResults changePlayerDecision simulationsNumber.toNat
                tape).count true : ℚ) / (simulationsNumber : ℚ))),
          finalTape changePlayerDecision simulationsNumber.toNat tape) := by
  simp only [runSimulation, runSimulationGo_eq]

/-! ## Claim theorems -/

/-- Claim C1: for a single trial as implemented by `simulateSingleGame`,
with the prize and the initial pick drawn uniformly and independently from
`[0,2]` and the reveal drawn uniformly among qualifying doors, the stay
strategy wins with probability exactly `1/3` and the switch strategy with
probability exactly `2/3` (by the law of large numbers the Monte Carlo win
ratios converge to these values). -/
theorem monty_hall_probabilities : probWin false = 1 / 3 ∧ probWin true = 2 / 3 :=
  ⟨probWin_stay, probWin_switch⟩

/-- Claim C2, counterexample: after the prize-assignment transition (the
first transition of the trial whose tape starts with draw `0`) no door is
selected, so the board does not satisfy the claimed invariant "exactly one
door has `selected = true`" at that point. -/
theorem board_invariant_fails_after_prize :
    ¬ boardOk (boardAfterCar (carDraw [0, 1, 0])) := by decide

/-- Claim C2 (amended): after prize assignment the board has exactly one
`hasCar` door and no selected or open door; after each later transition
(initial selection, reveal, optional reselection) the full invariant holds:
exactly one `hasCar`, exactly one `selected`, at most one `open`, the
`hasCar` door never open, the selected door never open. -/
theorem trial_board_invariants (tape : List Nat) :
    countTrue (boardAfterCar (carDraw tape)) (fun d => d.hasCar) = 1 ∧
    countTrue (boardAfterCar (carDraw tape)) (fun d => d.selected) = 0 ∧
    countTrue (boardAfterCar (carDraw tape)) (fun d => d.«open») = 0 ∧
    boardOk (boardAfterPick (carDraw tape) (pickDraw tape)) ∧
    ∀ o ∈ revealIndices (carDraw tape) (pickDraw tape),
      boardOk (boardAfterReveal (carDraw tape) (pickDraw tape) o) ∧
      ∀ n ∈ switchIndices (carDraw tape) (pickDraw tape) o,
        boardOk (boardAfterSwitch (carDraw tape) (pickDraw tape) o n) := by
  have h := board_stage_facts _ (carDraw_lt tape) _ (pickDraw_lt tape)
  exact ⟨h.1.1, h.1.2.1, h.1.2.2, h.2.1, h.2.2⟩

/-- Claim C2 witness: in the trial on tape `[0, 1, 0]` the board after the
reveal of door `2` satisfies the invariant. -/
theorem trial_board_invariants_witness :
    boardOk (boardAfterReveal (carDraw [0, 1, 0]) (pickDraw [0, 1, 0]) 2) :=
  ((trial_board_invariants [0, 1, 0]).2.2.2.2 2 (by decide)).1

/-- Claim C3: at the reveal step the set of doors neither selected nor
holding the car is non-empty (two members when the pick matched the prize,
one otherwise), at the switch step the set of doors neither selected nor
open is non-empty, and consequently `simulateSingleGame` never takes the
`"No suitable indices available"` error branch. -/
theorem reveal_and_switch_never_fail (changePlayerDecision : Bool)
    (tape : List Nat) :
    revealIndices (carDraw tape) (pickDraw tape) ≠ [] ∧
    (revealIndices (carDraw tape) (pickDraw tape)).length =
      (if carDraw tape = pickDraw tape then 2 else 1) ∧
    (∀ o ∈ revealIndices (carDraw tape) (pickDraw tape),
      switchIndices (carDraw tape) (pickDraw tape) o ≠ []) ∧
    ∃ w t, simulateSingleGame changePlayerDecision tape = Except.ok (w, t) := by
  have hc := carDraw_lt tape
  have hp := pickDraw_lt tape
  obtain ⟨h1, h2⟩ := revealIndices_facts _ hc _ hp
  exact ⟨h1, h2, fun o ho => (switchIndices_facts _ hc _ hp o ho).1,
    simulateSingleGame_ok changePlayerDecision tape⟩

/-- Claim C3 witness: in the trial on tape `[0, 1, 0]` the switch-step
qualifying set at revealed door `2` is non-empty. -/
theorem reveal_and_switch_never_fail_witness :
    switchIndices (carDraw [0, 1, 0]) (pickDraw [0, 1, 0]) 2 ≠ [] :=
  (reveal_and_switch_never_fail true [0, 1, 0]).2.2.1 2 (by decide)

/-- Claim C4 (code bug): `parseArguments` accepts `--simulations 0` and
`--simulations -5` without any error (the C++ code never checks the sign
of the parsed value), and with count `0` the batch then runs: the loop
executes zero trials and the `winCount / simulationsNumber` division is
reached with a zero divisor (the `none` ratio modelling the C++ `0/0`
double, a NaN). -/
theorem parseArguments_accepts_nonpositive :
    parseArguments ["--simulations", "0"] = Except.ok (0, LogLevel.INFO) ∧
    parseArguments ["--simulations", "-5"] = Except.ok (-5, LogLevel.INFO) ∧
    runSimulation 0 false [] = Except.ok ((0, none), []) := by decide

/-- Claim C5: `chooseRandomIndex` collects the indices satisfying the
predicate in ascending order; an index is collected exactly when it is in
bounds and satisfies the predicate; the call errors exactly when no index
qualifies; and a returned index is one of the collected ones, hence in
bounds and satisfying the predicate. -/
theorem chooseRandomIndex_contract (board : List DoorState)
    (cond : DoorState → Bool) (tape : List Nat) :
    (candidateIndices board cond).Pairwise (· < ·) ∧
    (∀ i, i ∈ candidateIndices board cond ↔
      i < board.length ∧ cond (board.getD i default) = true) ∧
    ((∃ e, chooseRandomIndex board cond tape = Except.error e) ↔
      candidateIndices board cond = []) ∧
    (∀ i t, chooseRandomIndex board cond tape = Except.ok (i, t) →
      i ∈ candidateIndices board cond ∧ i < board.length ∧
        cond (board.getD i default) = true) := by
  have hmem : ∀ i, i ∈ candidateIndices board cond ↔
      i < board.length ∧ cond (board.getD i default) = true := by
    intro i
    simp [candidateIndices, List.mem_filter, List.mem_range]
  refine ⟨?_, hmem, ?_, ?_⟩
  · exact (List.pairwise_lt_range board.length).filter _
  · constructor
    · rintro ⟨e, he⟩
      by_contra hne
      rw [chooseRandomIndex_ok board cond tape hne] at he
      exact Except.noConfusion he
    · intro hnil
      refine ⟨"No suitable indices available", ?_⟩
      simp [chooseRandomIndex, hnil]
  · intro i t h
    have hi := chooseRandomIndex_mem board cond tape i t h
    exact ⟨hi, (hmem i).mp hi⟩

/-- Claim C5 witness: on the all-closed fresh board every door qualifies
for the reveal predicate and the helper returns index `0`, which is
collected, in bounds and satisfies the predicate. -/
theorem chooseRandomIndex_contract_witness :
    0 ∈ candidateIndices boardInit revealCond ∧ 0 < boardInit.length ∧
      revealCond (boardInit.getD 0 default) = true :=
  (chooseRandomIndex_contract boardInit revealCond []).2.2.2 0 [] (by decide)

/-- Claim C6: in every trial, after the reveal exactly one door is neither
selected nor open; the reselection draw returns exactly that door whatever
the random source produces; and on the reselected board the old pick is no
longer selected, the new door is selected, and it is the unique selected
door. -/
theorem switch_selects_unique_door (tape : List Nat) :
    ∀ o ∈ revealIndices (carDraw tape) (pickDraw tape),
      (switchIndices (carDraw tape) (pickDraw tape) o).length = 1 ∧
      ∀ n ∈ switchIndices (carDraw tape) (pickDraw tape) o,
        (∀ t2, chooseRandomIndex
            (boardAfterReveal (carDraw tape) (pickDraw tape) o) switchCond t2 =
          Except.ok (n, t2.tail)) ∧
        pickDraw tape ≠ n ∧
        ((boardAfterSwitch (carDraw tape) (pickDraw tape) o n).getD n
          default).selected = true ∧
        ((boardAfterSwitch (carDraw tape) (pickDraw tape) o n).getD
          (pickDraw tape) default).selected = false ∧
        countTrue (boardAfterSwitch (carDraw tape) (pickDraw tape) o n)
          (fun d => d.selected) = 1 := by
  intro o ho
  have hc := carDraw_lt tape
  have hp := pickDraw_lt tape
  obtain ⟨-, hlen⟩ := switchIndices_facts _ hc _ hp o ho
  refine ⟨hlen, fun n hn => ?_⟩
  obtain ⟨hpn, hsel, hold, hcount⟩ := switch_sel_facts _ hc _ hp o ho n hn
  have hsing : switchIndices (carDraw tape) (pickDraw tape) o = [n] := by
    obtain ⟨a, ha⟩ := List.length_eq_one.mp hlen
    rw [ha] at hn ⊢
    rw [List.mem_singleton.mp hn]
  exact ⟨fun t2 => chooseRandomIndex_singleton _ _ _ hsing t2,
    hpn, hsel, hold, hcount⟩

/-- Claim C6 witness: in the trial on tape `[0, 1, 0]` (car behind door
`0`, pick `1`, reveal `2`) exactly one door qualifies at the switch step. -/
theorem switch_selects_unique_door_witness :
    (switchIndices (carDraw [0, 1, 0]) (pickDraw [0, 1, 0]) 2).length = 1 :=
  (switch_selects_unique_door [0, 1, 0] 2 (by decide)).1

/-- Claim C7: for every positive trial count, `runSimulation` runs exactly
that many trials sequentially, `winCount` is the number of trials that
returned `true` (hence at most the trial count), and the reported win
ratio equals `winCount / trialCount`. -/
theorem runSimulation_batch_spec (n : Nat) (hn : 0 < n)
    (changePlayerDecision : Bool) (tape : List Nat) :
    runSimulation (n : Int) changePlayerDecision tape =
      Except.ok
        (((trialResults changePlayerDecision n tape).count true,
          some (((trialResults changePlayerDecision n tape).count true : ℚ) /
            (n : ℚ))),
          finalTape changePlayerDecision n tape) ∧
    (trialResults changePlayerDecision n tape).length = n ∧
    (trialResults changePlayerDecision n tape).count true ≤ n := by
  have hlen := trialResults_length changePlayerDecision n tape
  have hcnt := List.count_le_length true (trialResults changePlayerDecision n tape)
  refine ⟨?_, hlen, by omega⟩
  rw [runSimulation_eq]
  have h0 : ¬ ((n : Int) = 0) := by
    simpa using hn.ne'
  simp [h0, Int.toNat_natCast]

/-- Claim C7 witness: a batch of one trial records exactly one result. -/
theorem runSimulation_batch_spec_witness :
    (trialResults false 1 []).length = 1 :=
  (runSimulation_batch_spec 1 (by decide) false []).2.1

/-- Claim C8: for every trial count, `simulate` runs the stay batch first,
then the switch batch with the same trial count on the tape left by the
stay batch (fresh draws from the shared random source, no reseeding), and
reports both results. -/
theorem simulate_two_batches (simulationsNumber : Int) (tape : List Nat) :
    ∃ stayResult switchResult t1 t2,
      runSimulation simulationsNumber false tape =
        Except.ok (stayResult, t1) ∧
      runSimulation simulationsNumber true t1 =
        Except.ok (switchResult, t2) ∧
      simulate simulationsNumber tape =
        Except.ok ((stayResult, switchResult), t2) := by
  refine ⟨_, _, _, _, runSimulation_eq _ _ _, runSimulation_eq _ _ _, ?_⟩
  simp only [simulate, runSimulation_eq]

/-- Claim C9: a batch with trial count `1` has `winCount` either `0` or
`1`, and the computed win ratio is exactly that integer (an integer of
magnitude at most `2^53`, hence exactly representable as an IEEE binary64
value: no rounding error). -/
theorem single_trial_ratio_exact (changePlayerDecision : Bool)
    (tape : List Nat) :
    ∃ (w : Nat) (t : List Nat), runSimulation 1 changePlayerDecision tape =
      Except.ok ((w, some (w : ℚ)), t) ∧ (w = 0 ∨ w = 1) ∧
      ∃ m : ℤ, (w : ℚ) = (m : ℚ) ∧ m.natAbs ≤ 2 ^ 53 := by
  refine ⟨(trialResults changePlayerDecision 1 tape).count true,
    finalTape changePlayerDecision 1 tape, ?_, ?_, ?_⟩
  · rw [runSimulation_eq]
    norm_num
  · have hlen := trialResults_length changePlayerDecision 1 tape
    have := List.count_le_length true (trialResults changePlayerDecision 1 tape)
    omega
  · refine ⟨((trialResults changePlayerDecision 1 tape).count true : ℤ),
      by push_cast; ring, ?_⟩
    have hlen := trialResults_length changePlayerDecision 1 tape
    have := List.count_le_length true (trialResults changePlayerDecision 1 tape)
    have h53 : (1 : Nat) ≤ 2 ^ 53 := Nat.one_le_two_pow
    simp only [Int.natAbs_ofNat]
    omega

/-- Claim C10: the trial outcome is fully determined by whether the
initial pick hits the prize, whatever the host reveals: with the stay
strategy the trial returns `true` iff the pick equals the prize index,
and with the switch strategy iff it differs. -/
theorem outcome_determined_by_first_pick (tape : List Nat) :
    simulateSingleGame false tape =
      Except.ok (decide (carDraw tape = pickDraw tape),
        (tapeAfterPick tape).tail) ∧
    ∃ t, simulateSingleGame true tape =
      Except.ok (!decide (carDraw tape = pickDraw tape), t) :=
  ⟨simulateSingleGame_stay tape, simulateSingleGame_switch tape⟩
